import Mathlib

/-!
Verification of the pivotaltracker-to-jira migration tool against its
natural-language specification.  The Go source is shallowly embedded:
pure functions become Lean functions, map mutation becomes association-list
update, and the effectful pieces (HTTP sends, logs, sleeps) are made
explicit as traces returned alongside the result.
-/

namespace PivotalToJira

/-- `models.CSVRecord`: one CSV row as a header-name → value map.
Embedded as an association list; `lookup` finds the current binding. -/
abbrev CSVRecord := List (String × String)

/-- Go map read with the `ok` flag: `v, ok := rec[k]`. -/
def CSVRecord.get (rec : CSVRecord) (k : String) : Option String :=
  List.lookup k rec

/-- Go map read without the `ok` flag: a missing key reads as `""`. -/
def CSVRecord.getD (rec : CSVRecord) (k : String) : String :=
  (rec.get k).getD ""

/-- `strings.ToLower`, folded character by character (the source only
compares ASCII names, where Go's Unicode folding and `Char.toLower`
agree). -/
def strToLower (s : String) : String :=
  ⟨s.data.map Char.toLower⟩

instance {ε α : Type} [DecidableEq ε] [DecidableEq α] :
    DecidableEq (Except ε α) := fun a b =>
  match a, b with
  | .ok x, .ok y =>
    if h : x = y then .isTrue (by rw [h]) else .isFalse (by simp [h])
  | .error x, .error y =>
    if h : x = y then .isTrue (by rw [h]) else .isFalse (by simp [h])
  | .ok _, .error _ => .isFalse (by simp)
  | .error _, .ok _ => .isFalse (by simp)

/-- Go map assignment `m[k] = v` on an association list: replace the
binding if the key is present, otherwise append it. -/
def upsert {α : Type} (m : List (String × α)) (k : String) (v : α) :
    List (String × α) :=
  if (List.lookup k m).isSome then
    m.map (fun p => if p.1 = k then (k, v) else p)
  else
    m ++ [(k, v)]

/-! ## RateLimitedTransport (`api` package, `retryOnRateLimit`)

An HTTP request body is a single-use stream: `http.Client.Do` reads it to
EOF while transmitting, so after a send the stream holds no bytes.  We
model a request as the remaining bytes of its body stream (`none` for a
bodyless request) and record, per attempt, the bytes that were actually
transmitted. -/

/-- The body stream of an `http.Request`: `none` when the request has no
body, otherwise the bytes not yet consumed from the stream. -/
structure HttpRequest where
  body : Option (List Nat)
deriving Repr, DecidableEq

/-- An HTTP response: status code and body bytes. -/
structure HttpResponse where
  status : Nat
  respBody : List Nat
deriving Repr, DecidableEq

/-- Result of one `http.Client.Do` call: a transport-level (connection)
error, or a response. -/
inductive DoResult where
  | fail (msg : String)
  | resp (r : HttpResponse)
deriving Repr, DecidableEq

/-- `http.Client.Do` consumes the request body stream: it transmits the
bytes currently remaining and leaves the stream drained (`some []`).
Returns the request after the send and the transmitted body. -/
def doConsume (req : HttpRequest) : HttpRequest × Option (List Nat) :=
  match req.body with
  | none => (⟨none⟩, none)
  | some bs => (⟨some []⟩, some bs)

/-- Observable effects of one `retryOnRateLimit` call: the body bytes
transmitted on each attempt (in order), the number of warning logs, the
sleeps performed (seconds), and how many response bodies were drained
and discarded. -/
structure TransportTrace where
  sentBodies : List (Option (List Nat))
  warnCount : Nat
  sleepSeconds : List Nat
  drainedResponses : Nat
deriving Repr, DecidableEq

/-- `retryOnRateLimit` (api package): perform the request once; on a
429 response, drain and close the response body, log a warning, sleep
10 seconds, re-read whatever remains of `req.Body` and install it as the
new body, then perform the request exactly once more and return that
second result unconditionally.  `attempts n` is the outcome the HTTP
client produces for attempt `n`. -/
def retryOnRateLimit (req : HttpRequest) (attempts : Nat → DoResult) :
    Except String HttpResponse × TransportTrace :=
  let (req1, sent1) := doConsume req
  match attempts 0 with
  | .fail e => (.error e, ⟨[sent1], 0, [], 0⟩)
  | .resp r =>
    if r.status ≠ 429 then
      (.ok r, ⟨[sent1], 0, [], 0⟩)
    else
      let req2 : HttpRequest :=
        match req1.body with
        | none => req1
        | some rest => ⟨some rest⟩
      let (_, sent2) := doConsume req2
      match attempts 1 with
      | .fail e => (.error e, ⟨[sent1, sent2], 1, [10], 1⟩)
      | .resp r2 => (.ok r2, ⟨[sent1, sent2], 1, [10], 1⟩)

/-- Modelled from the spec (§4.1 RateLimitedTransport), control-flow
only: send once; surface a connection error immediately; return a
non-429 response as is; on 429 drain the response body, log one warning,
sleep the fixed 10-second backoff, send exactly once more and return the
second outcome whatever it is.  Produces the result together with
(number of sends, warnings, sleeps, drained responses). -/
def specTransportBehavior (attempts : Nat → DoResult) :
    Except String HttpResponse × (Nat × Nat × List Nat × Nat) :=
  match attempts 0 with
  | .fail e => (.error e, (1, 0, [], 0))
  | .resp r =>
    if r.status = 429 then
      match attempts 1 with
      | .fail e => (.error e, (2, 1, [10], 1))
      | .resp r2 => (.ok r2, (2, 1, [10], 1))
    else
      (.ok r, (1, 0, [], 0))

/-! ## JiraClient: `UpdateStatus` (api package)

`UpdateStatus` first short-circuits a case-insensitive "backlog" target,
otherwise it calls `GetTransitions` (a network GET), looks up the
lowercased target status in the returned map, and POSTs the transition.
The network calls it issues are recorded in order. -/

/-- One network request made by `UpdateStatus`. -/
inductive JiraCall where
  | getTransitions (issueKey : String)
  | postTransition (issueKey transitionID : String)
deriving Repr, DecidableEq

/-- `UpdateStatus issueKey targetStatus`: the environment supplies the
outcome of the `GetTransitions` GET (an error, or the lowercased
status-name → transition-id map) and the status code of the transition
POST.  Returns the result and the list of network calls issued. -/
def UpdateStatus (issueKey targetStatus : String)
    (transitionsResult : Except String (List (String × String)))
    (postStatusCode : Nat) :
    Except String Unit × List JiraCall :=
  if strToLower targetStatus = "backlog" then
    (.ok (), [])
  else
    match transitionsResult with
    | .error e => (.error e, [.getTransitions issueKey])
    | .ok transitionMap =>
      match List.lookup (strToLower targetStatus) transitionMap with
      | none =>
        (.error ("ステータス " ++ targetStatus ++ " への遷移が見つかりません"),
         [.getTransitions issueKey])
      | some transitionID =>
        if postStatusCode = 204 then
          (.ok (), [.getTransitions issueKey, .postTransition issueKey transitionID])
        else
          (.error "ステータス更新失敗",
           [.getTransitions issueKey, .postTransition issueKey transitionID])

/-! ## MigrationService.processRecord (services package)

The parts of `processRecord` the claims are about: the summary string and
the issue type submitted to `CreateIssue`. -/

/-- The summary `processRecord` submits to `CreateIssue`: the record
title (or the literal `"No Title"` when the title is empty) prefixed
with the source id in square brackets. -/
def processRecordSummary (record : CSVRecord) : String :=
  let summary := record.getD "Title"
  let summary := if summary = "" then "No Title" else summary
  let pivotalId := record.getD "JIRA Issue ID"
  "[" ++ pivotalId ++ "] " ++ summary

/-- The issue type `processRecord` submits to `CreateIssue`: defaults to
`"Task"`; when the record carries a non-empty `Type`, a switch on its
lowercasing picks the mapped target type. -/
def processRecordIssueType (record : CSVRecord) : String :=
  match record.get "Type" with
  | none => "Task"
  | some recType =>
    if recType = "" then "Task"
    else
      let l := strToLower recType
      if l = "bug" then "Bug"
      else if l = "feature" ∨ l = "story" then "feature"
      else if l = "chore" then "chore"
      else if l = "epic" then "Epic"
      else if l = "release" then "release"
      else "Task"

/-- Modelled from the spec (§4.4 issue-type mapping table): the
case-insensitive source-type → target-type mapping with default
`"Task"`, an absent or empty source type included. -/
def specIssueType (srcType : Option String) : String :=
  let l := strToLower (srcType.getD "")
  if l = "bug" then "Bug"
  else if l = "feature" ∨ l = "story" then "feature"
  else if l = "chore" then "chore"
  else if l = "epic" then "Epic"
  else if l = "release" then "release"
  else "Task"

/-! ## CSVProcessor (services package)

The ledger file is embedded as a list of rows, each row a list of cell
strings; the first row is the header.  The Go index scans initialise the
column indices to `-1` and overwrite them on every header match, which we
render with `Option Nat` (`none` = `-1`), keeping the last match. -/

/-- Header scan of `LoadIssueMapping` / `UpdateJiraKeys`: the positions
of the `JIRA Issue ID` and `JIRA Issue Key` columns (last match wins). -/
def scanIdKey (headers : List String) : Option Nat × Option Nat :=
  headers.enum.foldl
    (fun acc p =>
      if p.2 = "JIRA Issue ID" then (some p.1, acc.2)
      else if p.2 = "JIRA Issue Key" then (acc.1, some p.1)
      else acc)
    (none, none)

/-- Header scan of `UpdateJiraKeysWithErrorFlags`: positions of the
`JIRA Issue ID`, `JIRA Issue Key` and `Error` columns (last match wins). -/
def scanIdKeyError (headers : List String) :
    Option Nat × Option Nat × Option Nat :=
  headers.enum.foldl
    (fun acc p =>
      if p.2 = "JIRA Issue ID" then (some p.1, acc.2.1, acc.2.2)
      else if p.2 = "JIRA Issue Key" then (acc.1, some p.1, acc.2.2)
      else if p.2 = "Error" then (acc.1, acc.2.1, some p.1)
      else acc)
    (none, none, none)

/-- The row loop body of `ReadCSV`: `rowData[headers[j]] = record[j]`
for `j` up to the shorter of the two lengths, in ascending order. -/
def buildRecord (headers record : List String) : CSVRecord :=
  (headers.zip record).foldl (fun m p => upsert m p.1 p.2) []

/-- `ReadCSV` (generic reader): fewer than two rows is an error;
otherwise each data row becomes a `CSVRecord` by pairing header names
with cells up to the shorter of the two lengths. -/
def ReadCSV (rows : List (List String)) : Except String (List CSVRecord) :=
  if rows.length < 2 then .error "CSVデータが不足しています"
  else
    match rows with
    | [] => .error "CSVデータが不足しています"
    | headers :: dataRows =>
      .ok (dataRows.map (buildRecord headers))

/-- The row loop body of `LoadIssueMapping`: rows shorter than both
mandatory columns are skipped, and only rows with a non-empty id, a
non-empty key, and a key different from the `"ERROR"` sentinel enter
the mapping. -/
def loadMappingStep (idIndex keyIndex : Nat)
    (mapping : List (String × String)) (record : List String) :
    List (String × String) :=
  if record.length ≤ max idIndex keyIndex then mapping
  else
    let pivotalID := record.getD idIndex ""
    let jiraKey := record.getD keyIndex ""
    if pivotalID ≠ "" ∧ jiraKey ≠ "" ∧ jiraKey ≠ "ERROR" then
      upsert mapping pivotalID jiraKey
    else mapping

/-- `LoadIssueMapping`: read the ledger CSV and build the
SourceID → TargetKey map, keeping only rows with a non-empty id, a
non-empty key, and a key different from the `"ERROR"` sentinel. -/
def LoadIssueMapping (rows : List (List String)) :
    Except String (List (String × String)) :=
  if rows.length < 2 then .error "マッピングデータが不足しています"
  else
    match rows with
    | [] => .error "マッピングデータが不足しています"
    | headers :: dataRows =>
      match scanIdKey headers with
      | (some idIndex, some keyIndex) =>
        .ok (dataRows.foldl (loadMappingStep idIndex keyIndex) [])
      | _ => .error "マッピングに必要なカラムが見つかりません"

/-- Per-row update of `UpdateJiraKeysWithErrorFlags`: a row shorter than
both mandatory columns is left alone; a row whose id has no mapping
entry is left alone; otherwise the key cell is overwritten with the
mapped value and the error cell with `"1"` when the error flag for the
id is present and true, `"0"` otherwise. -/
def applyRow (idIndex keyIndex errorIndex : Nat)
    (mapping : List (String × String)) (errorFlags : List (String × Bool))
    (record : List String) : List String :=
  if record.length ≤ max idIndex keyIndex then record
  else
    let pivotalID := record.getD idIndex ""
    match List.lookup pivotalID mapping with
    | none => record
    | some jiraKey =>
      let record := record.set keyIndex jiraKey
      if (List.lookup pivotalID errorFlags).getD false then
        record.set errorIndex "1"
      else
        record.set errorIndex "0"

/-- `UpdateJiraKeysWithErrorFlags`: rewrite the ledger CSV, appending an
`Error` column (with every existing row padded by an empty cell) when it
is missing, then applying `applyRow` to every data row. -/
def UpdateJiraKeysWithErrorFlags (rows : List (List String))
    (mapping : List (String × String)) (errorFlags : List (String × Bool)) :
    Except String (List (List String)) :=
  if rows.length < 2 then .error "更新するデータが不足しています"
  else
    match rows with
    | [] => .error "更新するデータが不足しています"
    | headers :: dataRows =>
      match scanIdKeyError headers with
      | (some idIndex, some keyIndex, errOpt) =>
        let (headersOut, errorIndex, dataRows) :=
          match errOpt with
          | some e => (headers, e, dataRows)
          | none => (headers ++ ["Error"], headers.length, dataRows.map (· ++ [""]))
        .ok (headersOut ::
          dataRows.map (applyRow idIndex keyIndex errorIndex mapping errorFlags))
      | _ => .error "必要なカラムが見つかりません"

/-! ## MigrationService.ImportIssues (services package)

Each record is handed to `processRecord` (whose fatal step is
`CreateIssue`); the aggregation point records the outcome under the
record's `JIRA Issue ID` in the result map and the error-flag map and
counts failures.  The goroutine pool hands every outcome through a
mutex-guarded section; with the spec's distinct-SourceID invariant the
final maps do not depend on completion order, and the model aggregates
in submission order.  `createCalls` records the ids for which
`processRecord` (hence `CreateIssue`) was invoked. -/

/-- The id under which `ImportIssues` stores a record's outcome:
`rec["JIRA Issue ID"]`. -/
def pidOf (rec : CSVRecord) : String :=
  rec.getD "JIRA Issue ID"

/-- Whether `processRecord` fails for a record (its `CreateIssue` step
is the only fatal one). -/
def createFails (create : CSVRecord → Except String String)
    (rec : CSVRecord) : Bool :=
  match create rec with
  | .error _ => true
  | .ok _ => false

/-- The value `ImportIssues` stores in the result map for a record:
the created issue key, or the `"ERROR"` sentinel on failure. -/
def outcomeKey (create : CSVRecord → Except String String)
    (rec : CSVRecord) : String :=
  match create rec with
  | .error _ => "ERROR"
  | .ok issueKey => issueKey

structure ImportState where
  resultMapping : List (String × String)
  errorFlags : List (String × Bool)
  errorCount : Nat
  createCalls : List String
deriving Repr, DecidableEq

/-- Aggregation of one record's outcome in `ImportIssues`.  The loop
body never consults the record's `Error` or `JIRA Issue Key` fields to
decide whether to process it; a prior `Error == "1"` only produces an
informational log line. -/
def importStep (create : CSVRecord → Except String String)
    (st : ImportState) (rec : CSVRecord) : ImportState :=
  let pivotalID := pidOf rec
  match create rec with
  | .error _ =>
    { resultMapping := upsert st.resultMapping pivotalID "ERROR"
      errorFlags := upsert st.errorFlags pivotalID true
      errorCount := st.errorCount + 1
      createCalls := st.createCalls ++ [pivotalID] }
  | .ok issueKey =>
    { resultMapping := upsert st.resultMapping pivotalID issueKey
      errorFlags := upsert st.errorFlags pivotalID false
      errorCount := st.errorCount
      createCalls := st.createCalls ++ [pivotalID] }

/-- `ImportIssues` over an already-loaded record list: fold every record
through `importStep`.  `create rec` is the outcome `processRecord`
produces for `rec` (the created issue key, or the creation error). -/
def ImportIssues (records : List CSVRecord)
    (create : CSVRecord → Except String String) : ImportState :=
  records.foldl (importStep create) ⟨[], [], 0, []⟩

/-- The completion line of `ImportIssues`:
`成功 = len(resultMapping) - errorCount`, `失敗 = errorCount`. -/
def importReport (st : ImportState) : Nat × Nat :=
  (st.resultMapping.length - st.errorCount, st.errorCount)

/-- The Import phase end to end: read the ledger CSV, run the import,
rewrite the ledger with the new keys and error flags, and report the
success/failure counts. -/
def importPhase (csv : List (List String))
    (create : CSVRecord → Except String String) :
    Except String ((Nat × Nat) × List (List String)) :=
  match ReadCSV csv with
  | .error e => .error e
  | .ok records =>
    let st := ImportIssues records create
    match UpdateJiraKeysWithErrorFlags csv st.resultMapping st.errorFlags with
    | .error e => .error e
    | .ok newCsv => .ok (importReport st, newCsv)

/-! ## MigrationService.UploadAttachments (services package)

The attachment root holds one sub-directory per SourceID; each
sub-directory's plain files form one `AttachmentGroup`, embedded as
`(pivotalID, files)`.  Per-file upload outcomes come from the
environment through `uploadOk issueKey filePath`. -/

structure UploadTrace where
  attemptedUploads : List (String × String × String)
  skippedWarnings : List String
  totalFiles : Nat
  uploadedFiles : Nat
  failedFiles : Nat
deriving Repr, DecidableEq

/-- `UploadAttachments`: for each group, resolve the SourceID through
the mapping; an unresolved id or the `"ERROR"` sentinel logs one warning
and skips the whole group; otherwise every file in the group is
uploaded (path `<pivotalID>/<file>` under the attachment root) and
counted as uploaded or failed.  `attemptedUploads` records
`(pivotalID, fileName, issueKey)` for every upload performed. -/
def uploadFileStep (uploadOk : String → String → Bool)
    (pivotalID issueKey : String) (st : UploadTrace) (file : String) :
    UploadTrace :=
  let st :=
    { st with
      totalFiles := st.totalFiles + 1
      attemptedUploads := st.attemptedUploads ++ [(pivotalID, file, issueKey)] }
  if uploadOk issueKey (pivotalID ++ "/" ++ file) then
    { st with uploadedFiles := st.uploadedFiles + 1 }
  else
    { st with failedFiles := st.failedFiles + 1 }

/-- Per-group body of `UploadAttachments`: an id missing from the
mapping or resolving to `"ERROR"` logs one warning and skips the
group; otherwise every file of the group goes through
`uploadFileStep`. -/
def uploadGroupStep (mapping : List (String × String))
    (uploadOk : String → String → Bool) (st : UploadTrace)
    (group : String × List String) : UploadTrace :=
  let pivotalID := group.1
  match List.lookup pivotalID mapping with
  | none => { st with skippedWarnings := st.skippedWarnings ++ [pivotalID] }
  | some issueKey =>
    if issueKey = "ERROR" then
      { st with skippedWarnings := st.skippedWarnings ++ [pivotalID] }
    else
      group.2.foldl (uploadFileStep uploadOk pivotalID issueKey) st

def UploadAttachments (mapping : List (String × String))
    (groups : List (String × List String))
    (uploadOk : String → String → Bool) : UploadTrace :=
  groups.foldl (uploadGroupStep mapping uploadOk) ⟨[], [], 0, 0, 0⟩

/-- The UploadAttachments phase end to end: load the issue mapping from
the ledger CSV (aborting on its errors), then upload the groups. -/
def uploadPhase (csv : List (List String))
    (groups : List (String × List String))
    (uploadOk : String → String → Bool) : Except String UploadTrace :=
  match LoadIssueMapping csv with
  | .error e => .error e
  | .ok mapping => .ok (UploadAttachments mapping groups uploadOk)

/-! ## Association-list lemmas -/

theorem lookup_cons_if {α : Type} (k : String) (p : String × α)
    (l : List (String × α)) :
    List.lookup k (p :: l) = if k = p.1 then some p.2 else List.lookup k l := by
  rcases p with ⟨a, b⟩
  by_cases h : k = a
  · subst h; simp [List.lookup]
  · have hb : (k == a) = false := beq_eq_false_iff_ne.mpr h
    simp [List.lookup, hb, h]

theorem lookup_append_single {α : Type} (m : List (String × α))
    (k k' : String) (v : α) (h : k' ≠ k) :
    List.lookup k' (m ++ [(k, v)]) = List.lookup k' m := by
  induction m with
  | nil => simp [lookup_cons_if, h]
  | cons p ps ih =>
    by_cases hp : k' = p.1 <;>
      simp [List.cons_append, lookup_cons_if, hp, ih]

theorem lookup_append_single_self {α : Type} (m : List (String × α))
    (k : String) (v : α) (h : List.lookup k m = none) :
    List.lookup k (m ++ [(k, v)]) = some v := by
  induction m with
  | nil => simp [lookup_cons_if]
  | cons p ps ih =>
    by_cases hp : k = p.1
    · rw [lookup_cons_if, if_pos hp] at h
      exact absurd h (by simp)
    · rw [lookup_cons_if, if_neg hp] at h
      simp [List.cons_append, lookup_cons_if, hp, ih h]

theorem lookup_map_replace {α : Type} (m : List (String × α))
    (k k' : String) (v : α) (h : k' ≠ k) :
    List.lookup k' (m.map (fun p => if p.1 = k then (k, v) else p))
      = List.lookup k' m := by
  induction m with
  | nil => simp
  | cons p ps ih =>
    rw [List.map_cons]
    by_cases hp : p.1 = k
    · have hk' : k' ≠ p.1 := fun he => h (he.trans hp)
      rw [if_pos hp, lookup_cons_if, lookup_cons_if, if_neg hk', ih]
      simp [h]
    · by_cases hp' : k' = p.1 <;>
        simp [if_neg hp, lookup_cons_if, hp', ih]

theorem lookup_map_replace_self {α : Type} (m : List (String × α))
    (k : String) (v : α) (h : (List.lookup k m).isSome) :
    List.lookup k (m.map (fun p => if p.1 = k then (k, v) else p))
      = some v := by
  induction m with
  | nil => simp [List.lookup] at h
  | cons p ps ih =>
    rw [List.map_cons]
    by_cases hp : p.1 = k
    · rw [if_pos hp, lookup_cons_if]
      simp
    · have hk : k ≠ p.1 := fun he => hp he.symm
      rw [lookup_cons_if, if_neg hk] at h
      rw [if_neg hp, lookup_cons_if, if_neg hk, ih h]

theorem lookup_upsert_self {α : Type} (m : List (String × α))
    (k : String) (v : α) :
    List.lookup k (upsert m k v) = some v := by
  unfold upsert
  by_cases hs : (List.lookup k m).isSome
  · simpa [hs] using lookup_map_replace_self m k v hs
  · have hnone : List.lookup k m = none := by
      cases h : List.lookup k m with
      | none => rfl
      | some w => rw [h] at hs; simp at hs
    simpa [hs] using lookup_append_single_self m k v hnone

theorem lookup_upsert_other {α : Type} (m : List (String × α))
    (k k' : String) (v : α) (h : k' ≠ k) :
    List.lookup k' (upsert m k v) = List.lookup k' m := by
  unfold upsert
  by_cases hs : (List.lookup k m).isSome
  · simpa [hs] using lookup_map_replace m k k' v h
  · simpa [hs] using lookup_append_single m k k' v h

theorem upsert_length_of_fresh {α : Type} (m : List (String × α))
    (k : String) (v : α) (h : List.lookup k m = none) :
    (upsert m k v).length = m.length + 1 := by
  unfold upsert
  simp [h]

/-! ## Lemmas about the `ImportIssues` aggregation fold -/

theorem importFold_createCalls (create : CSVRecord → Except String String)
    (records : List CSVRecord) (st : ImportState) :
    (records.foldl (importStep create) st).createCalls
      = st.createCalls ++ records.map pidOf := by
  induction records generalizing st with
  | nil => simp
  | cons r rs ih =>
    rw [List.foldl_cons, ih, List.map_cons]
    cases hc : create r <;> simp [importStep, pidOf, hc]

theorem importFold_errorCount (create : CSVRecord → Except String String)
    (records : List CSVRecord) (st : ImportState) :
    (records.foldl (importStep create) st).errorCount
      = st.errorCount + records.countP (createFails create) := by
  induction records generalizing st with
  | nil => simp
  | cons r rs ih =>
    rw [List.foldl_cons, ih, List.countP_cons]
    cases hc : create r <;> (simp [importStep, createFails, hc]; try omega)

theorem importFold_lookup_not_mem (create : CSVRecord → Except String String)
    (records : List CSVRecord) (st : ImportState) (pid : String)
    (h : pid ∉ records.map pidOf) :
    List.lookup pid (records.foldl (importStep create) st).resultMapping
        = List.lookup pid st.resultMapping
    ∧ List.lookup pid (records.foldl (importStep create) st).errorFlags
        = List.lookup pid st.errorFlags := by
  induction records generalizing st with
  | nil => exact ⟨rfl, rfl⟩
  | cons r rs ih =>
    rw [List.map_cons] at h
    have h1 : pid ≠ pidOf r := fun he => h (by rw [he]; exact List.mem_cons_self _ _)
    have h2 : pid ∉ rs.map pidOf := fun hm => h (List.mem_cons_of_mem _ hm)
    rw [List.foldl_cons]
    obtain ⟨ha, hb⟩ := ih (importStep create st r) h2
    constructor
    · rw [ha]
      cases hc : create r <;>
        simp [importStep, hc, lookup_upsert_other _ _ _ _ h1]
    · rw [hb]
      cases hc : create r <;>
        simp [importStep, hc, lookup_upsert_other _ _ _ _ h1]

theorem importFold_lookup_mem (create : CSVRecord → Except String String)
    (records : List CSVRecord) (st : ImportState) (rec : CSVRecord)
    (hmem : rec ∈ records) (hnodup : (records.map pidOf).Nodup) :
    List.lookup (pidOf rec) (records.foldl (importStep create) st).resultMapping
        = some (outcomeKey create rec)
    ∧ List.lookup (pidOf rec) (records.foldl (importStep create) st).errorFlags
        = some (createFails create rec) := by
  induction records generalizing st with
  | nil => cases hmem
  | cons r rs ih =>
    rw [List.map_cons, List.nodup_cons] at hnodup
    rw [List.foldl_cons]
    rcases List.mem_cons.mp hmem with heq | hmem'
    · subst heq
      obtain ⟨ha, hb⟩ :=
        importFold_lookup_not_mem create rs (importStep create st rec)
          (pidOf rec) hnodup.1
      rw [ha, hb]
      cases hc : create rec <;>
        simp [importStep, hc, outcomeKey, createFails, lookup_upsert_self]
    · exact ih _ hmem' hnodup.2

theorem importFold_mapping_length (create : CSVRecord → Except String String)
    (records : List CSVRecord) (st : ImportState)
    (hnodup : (records.map pidOf).Nodup)
    (hfresh : ∀ rec ∈ records,
      List.lookup (pidOf rec) st.resultMapping = none) :
    (records.foldl (importStep create) st).resultMapping.length
      = st.resultMapping.length + records.length := by
  induction records generalizing st with
  | nil => simp
  | cons r rs ih =>
    rw [List.map_cons, List.nodup_cons] at hnodup
    rw [List.foldl_cons]
    have hstep :
        (importStep create st r).resultMapping.length
          = st.resultMapping.length + 1 := by
      cases hc : create r <;>
        simp [importStep, hc,
          upsert_length_of_fresh _ _ _ (hfresh r (List.mem_cons_self _ _))]
    have hfresh' : ∀ rec ∈ rs,
        List.lookup (pidOf rec) (importStep create st r).resultMapping = none := by
      intro rec hrec
      have hne : pidOf rec ≠ pidOf r := by
        intro he
        exact hnodup.1 (he ▸ List.mem_map_of_mem pidOf hrec)
      cases hc : create r <;>
        simp [importStep, hc, lookup_upsert_other _ _ _ _ hne,
          hfresh rec (List.mem_cons_of_mem _ hrec)]
    rw [ih _ hnodup.2 hfresh', hstep, List.length_cons]
    omega

/-! ## Claim C1 — retry body bytes (`retryOnRateLimit`) -/

/-- C1: the claim asks that a rate-limited request with a non-empty body
be re-sent with byte-identical body content.  The code reads `req.Body`
only after the first send has already consumed the stream, so on the
concrete run below (body bytes `[1, 2, 3]`, first response 429, second
200) the first attempt transmits `[1, 2, 3]` and the retry transmits
the empty remainder — not identical. -/
theorem retry_resends_consumed_body :
    (retryOnRateLimit ⟨some [1, 2, 3]⟩
        (fun n => if n = 0 then DoResult.resp ⟨429, []⟩
                  else DoResult.resp ⟨200, []⟩)).2.sentBodies
      = [some [1, 2, 3], some []]
    ∧ (some [1, 2, 3] : Option (List Nat)) ≠ some [] := by
  decide

/-! ## Claim C5 — transport control flow (`retryOnRateLimit`) -/

/-- C5: the transport sends once; a connection error on either attempt
is surfaced immediately; a non-429 first response is returned without
retry, warning or sleep; exactly on a 429 first response it drains the
response body, warns once, sleeps 10 seconds and re-sends exactly once
more, returning the second outcome whatever it is.  Stated as equality
with the behaviour modelled from the spec. -/
theorem transport_single_retry_control_flow
    (req : HttpRequest) (attempts : Nat → DoResult) :
    ((retryOnRateLimit req attempts).1,
     (retryOnRateLimit req attempts).2.sentBodies.length,
     (retryOnRateLimit req attempts).2.warnCount,
     (retryOnRateLimit req attempts).2.sleepSeconds,
     (retryOnRateLimit req attempts).2.drainedResponses)
      = specTransportBehavior attempts := by
  obtain ⟨b⟩ := req
  cases h0 : attempts 0 with
  | fail e =>
    cases b <;> simp [retryOnRateLimit, specTransportBehavior, doConsume, h0]
  | resp r =>
    by_cases h429 : r.status = 429
    · cases h1 : attempts 1 <;> cases b <;>
        simp [retryOnRateLimit, specTransportBehavior, doConsume, h0, h1, h429]
    · cases b <;>
        simp [retryOnRateLimit, specTransportBehavior, doConsume, h0, h429]

/-! ## Claim C6 — "backlog" status skip (`UpdateStatus`) -/

/-- C6: for every issue key and every target status that
case-insensitively equals "backlog", `UpdateStatus` succeeds without
issuing any network call (no transition lookup, no transition POST),
whatever the environment would have answered. -/
theorem update_status_backlog_skip (issueKey targetStatus : String)
    (transitionsResult : Except String (List (String × String)))
    (postStatusCode : Nat) (h : strToLower targetStatus = "backlog") :
    UpdateStatus issueKey targetStatus transitionsResult postStatusCode
      = (.ok (), []) := by
  simp [UpdateStatus, h]

/-- Witness for C6 at a concrete input: even with the transition
endpoint unreachable, `"BACKLOG"` is a no-op success with no calls. -/
theorem update_status_backlog_skip_witness :
    strToLower "BACKLOG" = "backlog"
    ∧ UpdateStatus "PROJ-1" "BACKLOG" (.error "down") 500 = (.ok (), []) :=
  ⟨by decide,
   update_status_backlog_skip "PROJ-1" "BACKLOG" (.error "down") 500 (by decide)⟩

/-! ## Claim C8 — issue-type mapping (`processRecord`) -/

/-- C8: the issue type submitted to `CreateIssue` is determined
case-insensitively from the record's source `Type` exactly as the
spec's mapping table prescribes (`bug→Bug`, `feature|story→feature`,
`chore→chore`, `epic→Epic`, `release→release`, anything else —
an empty or absent value included — `Task`). -/
theorem issue_type_mapping_matches_spec (record : CSVRecord) :
    processRecordIssueType record = specIssueType (record.get "Type") := by
  unfold processRecordIssueType specIssueType
  cases h : record.get "Type" with
  | none => decide
  | some t =>
    by_cases ht : t = ""
    · subst ht; decide
    · simp [ht, Option.getD]

/-! ## Claim C9 — summary format (`processRecord`) -/

/-- C9: the summary submitted to `CreateIssue` is the record's `Title`
prefixed with its source id in square brackets, with the literal
`"No Title"` replacing an empty title, and is therefore never the
empty string. -/
theorem summary_prefixed_and_nonempty (record : CSVRecord) :
    processRecordSummary record
      = "[" ++ record.getD "JIRA Issue ID" ++ "] "
          ++ (if record.getD "Title" = "" then "No Title"
              else record.getD "Title")
    ∧ processRecordSummary record ≠ "" := by
  constructor
  · unfold processRecordSummary
    by_cases ht : record.getD "Title" = "" <;> simp [ht]
  · intro hcontra
    have hlen := congrArg String.length hcontra
    unfold processRecordSummary at hlen
    by_cases ht : record.getD "Title" = "" <;>
      simp [ht, String.length_append] at hlen <;>
      exact absurd hlen.1.1.1 (by decide)

/-! ## Claim C10 — short CSV input is an error -/

/-- C10: a CSV with fewer than two rows (in particular a ledger with
only a header row) makes `ReadCSV` and `LoadIssueMapping` return an
error instead of an empty record set, so both the Import phase and the
UploadAttachments phase abort on such input. -/
theorem short_csv_rejected (rows : List (List String))
    (create : CSVRecord → Except String String)
    (groups : List (String × List String))
    (uploadOk : String → String → Bool)
    (h : rows.length < 2) :
    ReadCSV rows = .error "CSVデータが不足しています"
    ∧ LoadIssueMapping rows = .error "マッピングデータが不足しています"
    ∧ importPhase rows create = .error "CSVデータが不足しています"
    ∧ uploadPhase rows groups uploadOk
        = .error "マッピングデータが不足しています" := by
  refine ⟨?_, ?_, ?_, ?_⟩ <;>
    simp [ReadCSV, LoadIssueMapping, importPhase, uploadPhase, h]

/-- Witness for C10 at a concrete input: a ledger consisting of only a
header row aborts both phases. -/
theorem short_csv_rejected_witness :
    [["JIRA Issue ID", "JIRA Issue Key", "Error"]].length < 2
    ∧ importPhase [["JIRA Issue ID", "JIRA Issue Key", "Error"]]
        (fun _ => .ok "KEY-1") = .error "CSVデータが不足しています"
    ∧ uploadPhase [["JIRA Issue ID", "JIRA Issue Key", "Error"]] [] (fun _ _ => true)
        = .error "マッピングデータが不足しています" := by
  have h := short_csv_rejected [["JIRA Issue ID", "JIRA Issue Key", "Error"]]
    (fun _ => .ok "KEY-1") [] (fun _ _ => true) (by decide)
  exact ⟨by decide, h.2.2.1, h.2.2.2⟩

/-! ## Claim C2 — no skip of previously successful records -/

/-- C2 counterexample: a record whose ledger row indicates a prior
successful run (`JIRA Issue Key` = `"KEY-1"`, `Error` = `"0"`) is still
offered to `CreateIssue` — the run's create-call list contains its id,
where the claim requires the record to be skipped. -/
theorem import_reprocesses_successful_record :
    (ImportIssues
        [[("JIRA Issue ID", "id1"), ("JIRA Issue Key", "KEY-1"), ("Error", "0")]]
        (fun _ => .ok "KEY-9")).createCalls = ["id1"]
    ∧ (["id1"] : List String) ≠ ([] : List String) := by
  decide

/-- C2 (amended): the Import phase never skips a record, whatever its
ledger row says — every record, previously successful ones included, is
offered to `processRecord` (hence `CreateIssue`) again; the ids handed
to creation are exactly all records' ids in order.  A prior
`Error == "1"` only changes a log line, not the control flow. -/
theorem import_offers_every_record (records : List CSVRecord)
    (create : CSVRecord → Except String String) :
    (ImportIssues records create).createCalls = records.map pidOf := by
  unfold ImportIssues
  rw [importFold_createCalls]
  rfl

/-! ## Claim C3 — ledger merge frame (`UpdateJiraKeysWithErrorFlags`) -/

theorem updateJKWEF_ok (headers : List String) (dataRows : List (List String))
    (mapping : List (String × String)) (errorFlags : List (String × Bool))
    (idIndex keyIndex errorIndex : Nat)
    (hscan : scanIdKeyError headers = (some idIndex, some keyIndex, some errorIndex))
    (hne : dataRows ≠ []) :
    UpdateJiraKeysWithErrorFlags (headers :: dataRows) mapping errorFlags
      = .ok (headers ::
          dataRows.map (applyRow idIndex keyIndex errorIndex mapping errorFlags)) := by
  unfold UpdateJiraKeysWithErrorFlags
  have hlen : ¬ ((headers :: dataRows).length < 2) := by
    cases dataRows with
    | nil => exact absurd rfl hne
    | cons d ds => simp
  rw [if_neg hlen]
  simp [hscan]

/-- C3: when the ledger is rewritten after an Import run (with all
three columns present in the header), every data row whose id has no
new outcome in the result map is kept entirely unchanged, and every row
whose id has a `Success(key)` outcome (map entry `key`, error flag
`false`) is rewritten to `TargetKey = key`, `Error = "0"`; the output
is exactly the header plus the per-row rewrite. -/
theorem ledger_merge_preserves_and_rewrites
    (headers : List String) (dataRows : List (List String))
    (mapping : List (String × String)) (errorFlags : List (String × Bool))
    (idIndex keyIndex errorIndex : Nat)
    (hscan : scanIdKeyError headers = (some idIndex, some keyIndex, some errorIndex))
    (hne : dataRows ≠ []) :
    UpdateJiraKeysWithErrorFlags (headers :: dataRows) mapping errorFlags
      = .ok (headers ::
          dataRows.map (applyRow idIndex keyIndex errorIndex mapping errorFlags))
    ∧ ∀ record : List String, max idIndex keyIndex < record.length →
        (List.lookup (record.getD idIndex "") mapping = none →
          applyRow idIndex keyIndex errorIndex mapping errorFlags record = record)
        ∧ ∀ jiraKey,
            List.lookup (record.getD idIndex "") mapping = some jiraKey →
            List.lookup (record.getD idIndex "") errorFlags = some false →
            applyRow idIndex keyIndex errorIndex mapping errorFlags record
              = (record.set keyIndex jiraKey).set errorIndex "0" := by
  refine ⟨updateJKWEF_ok headers dataRows mapping errorFlags
    idIndex keyIndex errorIndex hscan hne, ?_⟩
  intro record hlen
  constructor
  · intro hnone
    unfold applyRow
    rw [if_neg (not_le.mpr hlen)]
    rw [List.getD_eq_getElem?_getD] at hnone
    simp [hnone]
  · intro jiraKey hsome hflag
    unfold applyRow
    rw [if_neg (not_le.mpr hlen)]
    rw [List.getD_eq_getElem?_getD] at hsome hflag
    simp [hsome, hflag]

/-- Witness for C3 at the spec's example: prior rows `(id1, "", "")`
and `(id2, "KEY-2", "0")` with the single new outcome
`{id1 ↦ Success("KEY-1")}` yield `(id1, "KEY-1", "0")` and leave
`(id2, "KEY-2", "0")` unchanged. -/
theorem ledger_merge_example :
    UpdateJiraKeysWithErrorFlags
        [["JIRA Issue ID", "JIRA Issue Key", "Error"],
         ["id1", "", ""], ["id2", "KEY-2", "0"]]
        [("id1", "KEY-1")] [("id1", false)]
      = .ok [["JIRA Issue ID", "JIRA Issue Key", "Error"],
             ["id1", "KEY-1", "0"], ["id2", "KEY-2", "0"]]
    ∧ applyRow 0 1 2 [("id1", "KEY-1")] [("id1", false)] ["id2", "KEY-2", "0"]
        = ["id2", "KEY-2", "0"] := by
  have h := ledger_merge_preserves_and_rewrites
    ["JIRA Issue ID", "JIRA Issue Key", "Error"]
    [["id1", "", ""], ["id2", "KEY-2", "0"]]
    [("id1", "KEY-1")] [("id1", false)] 0 1 2 (by decide) (by decide)
  exact ⟨h.1.trans (by decide),
    (h.2 ["id2", "KEY-2", "0"] (by decide)).1 (by decide)⟩

/-! ## Lemmas about `LoadIssueMapping` and the upload fold -/

theorem loadMappingFold_lookup_none (idIndex keyIndex : Nat) (pid : String)
    (dataRows : List (List String)) (acc : List (String × String))
    (hacc : List.lookup pid acc = none)
    (herr : ∀ r ∈ dataRows, r.getD idIndex "" = pid → r.getD keyIndex "" = "ERROR") :
    List.lookup pid (dataRows.foldl (loadMappingStep idIndex keyIndex) acc) = none := by
  induction dataRows generalizing acc with
  | nil => exact hacc
  | cons r rs ih =>
    rw [List.foldl_cons]
    refine ih _ ?_ (fun r' hr' => herr r' (List.mem_cons_of_mem _ hr'))
    unfold loadMappingStep
    by_cases hg : r.length ≤ max idIndex keyIndex
    · rwa [if_pos hg]
    · rw [if_neg hg]
      by_cases hc : r.getD idIndex "" ≠ "" ∧ r.getD keyIndex "" ≠ ""
          ∧ r.getD keyIndex "" ≠ "ERROR"
      · have hne : r.getD idIndex "" ≠ pid := by
          intro he
          exact hc.2.2 (herr r (List.mem_cons_self _ _) he)
        rw [if_pos hc, lookup_upsert_other _ _ _ _ (fun he => hne he.symm)]
        exact hacc
      · rwa [if_neg hc]

theorem loadIssueMapping_ok (headers : List String)
    (dataRows : List (List String)) (idIndex keyIndex : Nat)
    (hscan : scanIdKey headers = (some idIndex, some keyIndex))
    (hne : dataRows ≠ []) :
    LoadIssueMapping (headers :: dataRows)
      = .ok (dataRows.foldl (loadMappingStep idIndex keyIndex) []) := by
  unfold LoadIssueMapping
  have hlen : ¬ ((headers :: dataRows).length < 2) := by
    cases dataRows with
    | nil => exact absurd rfl hne
    | cons d ds => simp
  rw [if_neg hlen]
  simp [hscan]

theorem uploadFileFold_warnings (uploadOk : String → String → Bool)
    (pivotalID issueKey : String) (files : List String) (st : UploadTrace) :
    (files.foldl (uploadFileStep uploadOk pivotalID issueKey) st).skippedWarnings
      = st.skippedWarnings := by
  induction files generalizing st with
  | nil => rfl
  | cons f fs ih =>
    rw [List.foldl_cons, ih]
    unfold uploadFileStep
    by_cases h : uploadOk issueKey (pivotalID ++ "/" ++ f) <;> simp [h]

theorem uploadFileFold_attempted (uploadOk : String → String → Bool)
    (pivotalID issueKey : String) (files : List String) (st : UploadTrace) :
    (files.foldl (uploadFileStep uploadOk pivotalID issueKey) st).attemptedUploads
      = st.attemptedUploads ++ files.map (fun f => (pivotalID, f, issueKey)) := by
  induction files generalizing st with
  | nil => simp
  | cons f fs ih =>
    rw [List.foldl_cons, ih]
    unfold uploadFileStep
    by_cases h : uploadOk issueKey (pivotalID ++ "/" ++ f) <;> simp [h]

theorem uploadGroupFold_warnings_mono (mapping : List (String × String))
    (uploadOk : String → String → Bool) (groups : List (String × List String))
    (st : UploadTrace) (w : String) (h : w ∈ st.skippedWarnings) :
    w ∈ (groups.foldl (uploadGroupStep mapping uploadOk) st).skippedWarnings := by
  induction groups generalizing st with
  | nil => exact h
  | cons g gs ih =>
    rw [List.foldl_cons]
    apply ih
    unfold uploadGroupStep
    cases hl : List.lookup g.1 mapping with
    | none => simp [hl, h]
    | some key =>
      by_cases hk : key = "ERROR"
      · simp [hl, hk, h]
      · simp [hl, hk, uploadFileFold_warnings, h]

theorem upload_skip_warned (mapping : List (String × String))
    (uploadOk : String → String → Bool) (groups : List (String × List String))
    (st : UploadTrace) (pid : String) (files : List String)
    (hnone : List.lookup pid mapping = none)
    (hmem : (pid, files) ∈ groups) :
    pid ∈ (groups.foldl (uploadGroupStep mapping uploadOk) st).skippedWarnings := by
  induction groups generalizing st with
  | nil => cases hmem
  | cons g gs ih =>
    rw [List.foldl_cons]
    rcases List.mem_cons.mp hmem with heq | hmem'
    · apply uploadGroupFold_warnings_mono
      rw [← heq]
      unfold uploadGroupStep
      simp [hnone]
    · exact ih _ hmem'

theorem upload_attempted_resolvable (mapping : List (String × String))
    (uploadOk : String → String → Bool) (groups : List (String × List String))
    (st : UploadTrace)
    (hst : ∀ e ∈ st.attemptedUploads, (List.lookup e.1 mapping).isSome) :
    ∀ e ∈ (groups.foldl (uploadGroupStep mapping uploadOk) st).attemptedUploads,
      (List.lookup e.1 mapping).isSome := by
  induction groups generalizing st with
  | nil => exact hst
  | cons g gs ih =>
    rw [List.foldl_cons]
    apply ih
    intro e he
    unfold uploadGroupStep at he
    cases hl : List.lookup g.1 mapping with
    | none =>
      simp only [hl] at he
      exact hst e (by simpa using he)
    | some key =>
      simp only [hl] at he
      by_cases hk : key = "ERROR"
      · rw [if_pos hk] at he
        exact hst e (by simpa using he)
      · rw [if_neg hk] at he
        rw [uploadFileFold_attempted] at he
        rcases List.mem_append.mp he with h1 | h2
        · exact hst e h1
        · obtain ⟨f, _, rfl⟩ := List.mem_map.mp h2
          simp [hl]

/-! ## Claim C4 — the `"ERROR"` sentinel and upload exclusion -/

/-- C4: a record whose issue creation fails is recorded under the
`"ERROR"` sentinel with error flag `true`; such a ledger row rewrites
to `TargetKey = "ERROR"`, `Error = "1"`; an id all of whose ledger rows
carry the sentinel never enters the mapping `LoadIssueMapping`
produces; and a group whose id is missing from that mapping is skipped
entirely by the upload phase — one warning is logged for it and none of
its files is ever uploaded. -/
theorem error_sentinel_excluded_from_upload :
    (∀ (records : List CSVRecord) (create : CSVRecord → Except String String)
        (rec : CSVRecord), rec ∈ records → (records.map pidOf).Nodup →
        ∀ e, create rec = .error e →
          List.lookup (pidOf rec) (ImportIssues records create).resultMapping
              = some "ERROR"
          ∧ List.lookup (pidOf rec) (ImportIssues records create).errorFlags
              = some true)
    ∧ (∀ (idIndex keyIndex errorIndex : Nat)
        (mapping : List (String × String)) (errorFlags : List (String × Bool))
        (record : List String), max idIndex keyIndex < record.length →
        List.lookup (record.getD idIndex "") mapping = some "ERROR" →
        List.lookup (record.getD idIndex "") errorFlags = some true →
        applyRow idIndex keyIndex errorIndex mapping errorFlags record
          = (record.set keyIndex "ERROR").set errorIndex "1")
    ∧ (∀ (headers : List String) (dataRows : List (List String))
        (idIndex keyIndex : Nat) (pid : String),
        scanIdKey headers = (some idIndex, some keyIndex) → dataRows ≠ [] →
        (∀ r ∈ dataRows, r.getD idIndex "" = pid → r.getD keyIndex "" = "ERROR") →
        ∃ m, LoadIssueMapping (headers :: dataRows) = .ok m
          ∧ List.lookup pid m = none)
    ∧ (∀ (mapping : List (String × String)) (groups : List (String × List String))
        (uploadOk : String → String → Bool) (pid : String) (files : List String),
        List.lookup pid mapping = none → (pid, files) ∈ groups →
        pid ∈ (UploadAttachments mapping groups uploadOk).skippedWarnings
        ∧ ∀ f k, (pid, f, k) ∉ (UploadAttachments mapping groups uploadOk).attemptedUploads) := by
  refine ⟨?_, ?_, ?_, ?_⟩
  · intro records create rec hmem hnodup e he
    obtain ⟨h1, h2⟩ := importFold_lookup_mem create records ⟨[], [], 0, []⟩ rec hmem hnodup
    unfold ImportIssues
    rw [h1, h2]
    simp [outcomeKey, createFails, he]
  · intro idIndex keyIndex errorIndex mapping errorFlags record hlen hsome hflag
    unfold applyRow
    rw [if_neg (not_le.mpr hlen)]
    rw [List.getD_eq_getElem?_getD] at hsome hflag
    simp [hsome, hflag]
  · intro headers dataRows idIndex keyIndex pid hscan hne herr
    exact ⟨_, loadIssueMapping_ok headers dataRows idIndex keyIndex hscan hne,
      loadMappingFold_lookup_none idIndex keyIndex pid dataRows [] rfl herr⟩
  · intro mapping groups uploadOk pid files hnone hmem
    refine ⟨upload_skip_warned mapping uploadOk groups _ pid files hnone hmem, ?_⟩
    intro f k hin
    have := upload_attempted_resolvable mapping uploadOk groups ⟨[], [], 0, 0, 0⟩
      (by intro e he; cases he) (pid, f, k) hin
    rw [hnone] at this
    cases this

/-- Witness for C4 at concrete inputs: a failing creation records the
sentinel; the sentinel row rewrites to `("ERROR", "1")`; the mapping
loaded from a sentinel-only ledger row resolves nothing for that id;
and the upload run for that id warns and attempts no upload. -/
theorem error_sentinel_example :
    List.lookup "id1"
        (ImportIssues [[("JIRA Issue ID", "id1")]]
          (fun _ => .error "boom")).resultMapping = some "ERROR"
    ∧ applyRow 0 1 2 [("id1", "ERROR")] [("id1", true)] ["id1", "", ""]
        = ["id1", "ERROR", "1"]
    ∧ (∃ m, LoadIssueMapping
          [["JIRA Issue ID", "JIRA Issue Key", "Error"], ["id1", "ERROR", "1"]]
          = .ok m ∧ List.lookup "id1" m = none)
    ∧ "id1" ∈ (UploadAttachments [("id2", "KEY-2")] [("id1", ["a.png"])]
          (fun _ _ => true)).skippedWarnings
    ∧ ("id1", "a.png", "KEY-2")
        ∉ (UploadAttachments [("id2", "KEY-2")] [("id1", ["a.png"])]
            (fun _ _ => true)).attemptedUploads := by
  obtain ⟨h1, h2, h3, h4⟩ := error_sentinel_excluded_from_upload
  refine ⟨(h1 [[("JIRA Issue ID", "id1")]] (fun _ => .error "boom")
      [("JIRA Issue ID", "id1")] (by decide) (by decide) "boom" (by decide)).1,
    h2 0 1 2 [("id1", "ERROR")] [("id1", true)] ["id1", "", ""]
      (by decide) (by decide) (by decide),
    h3 ["JIRA Issue ID", "JIRA Issue Key", "Error"] [["id1", "ERROR", "1"]]
      0 1 "id1" (by decide) (by decide) (by decide), ?_, ?_⟩
  · exact (h4 [("id2", "KEY-2")] [("id1", ["a.png"])] (fun _ _ => true)
      "id1" ["a.png"] (by decide) (by decide)).1
  · exact (h4 [("id2", "KEY-2")] [("id1", ["a.png"])] (fun _ _ => true)
      "id1" ["a.png"] (by decide) (by decide)).2 "a.png" "KEY-2"

/-! ## Claim C7 — success/failure counts and error-row count -/

theorem importIssues_lookup (create : CSVRecord → Except String String)
    (records : List CSVRecord) (rec : CSVRecord)
    (hmem : rec ∈ records) (hnodup : (records.map pidOf).Nodup) :
    List.lookup (pidOf rec) (ImportIssues records create).resultMapping
        = some (outcomeKey create rec)
    ∧ List.lookup (pidOf rec) (ImportIssues records create).errorFlags
        = some (createFails create rec) :=
  importFold_lookup_mem create records ⟨[], [], 0, []⟩ rec hmem hnodup

theorem importIssues_errorCount (create : CSVRecord → Except String String)
    (records : List CSVRecord) :
    (ImportIssues records create).errorCount
      = records.countP (createFails create) := by
  have h := importFold_errorCount create records ⟨[], [], 0, []⟩
  simpa using h

theorem importIssues_mapping_length (create : CSVRecord → Except String String)
    (records : List CSVRecord) (hnodup : (records.map pidOf).Nodup) :
    (ImportIssues records create).resultMapping.length = records.length := by
  have h := importFold_mapping_length create records ⟨[], [], 0, []⟩ hnodup
    (fun rec _ => rfl)
  simpa using h

theorem applyRow_error_cell (idIndex keyIndex errorIndex : Nat)
    (mapping : List (String × String)) (errorFlags : List (String × Bool))
    (record : List String) (v : String) (b : Bool)
    (hguard : max idIndex keyIndex < record.length)
    (hei : errorIndex < record.length)
    (hsome : List.lookup (record.getD idIndex "") mapping = some v)
    (hflag : List.lookup (record.getD idIndex "") errorFlags = some b) :
    (applyRow idIndex keyIndex errorIndex mapping errorFlags record).getD errorIndex ""
      = (if b then "1" else "0") := by
  unfold applyRow
  rw [if_neg (not_le.mpr hguard)]
  rw [List.getD_eq_getElem?_getD] at hsome hflag
  have hset : ∀ a : String,
      ((record.set keyIndex v).set errorIndex a)[errorIndex]? = some a := by
    intro a
    apply List.getElem?_set_eq_of_lt
    simp [hei]
  cases b with
  | true => simp [hsome, hflag, List.getD_eq_getElem?_getD, hset]
  | false => simp [hsome, hflag, List.getD_eq_getElem?_getD, hset]

/-- C7: under the spec's distinct-SourceID invariant, an Import run over
`N` ledger rows of which exactly `F` fail issue creation reports
`success = N - F` and `failure = F`, and the rewritten ledger contains
exactly `F` data rows with `Error = "1"`. -/
theorem import_summary_and_ledger_counts
    (headers : List String) (dataRows : List (List String))
    (create : CSVRecord → Except String String)
    (idIndex keyIndex errorIndex : Nat)
    (hscan : scanIdKeyError headers = (some idIndex, some keyIndex, some errorIndex))
    (hne : dataRows ≠ [])
    (hlen : ∀ r ∈ dataRows,
      max idIndex keyIndex < r.length ∧ errorIndex < r.length)
    (hpid : ∀ r ∈ dataRows,
      pidOf (buildRecord headers r) = r.getD idIndex "")
    (hnodup : ((dataRows.map (buildRecord headers)).map pidOf).Nodup) :
    ∃ newCsv,
      importPhase (headers :: dataRows) create
        = .ok ((dataRows.length
                  - dataRows.countP (fun r => createFails create (buildRecord headers r)),
                dataRows.countP (fun r => createFails create (buildRecord headers r))),
               newCsv)
      ∧ (newCsv.drop 1).countP (fun r => r.getD errorIndex "" == "1")
          = dataRows.countP (fun r => createFails create (buildRecord headers r)) := by
  have hlen2 : ¬ ((headers :: dataRows).length < 2) := by
    cases dataRows with
    | nil => exact absurd rfl hne
    | cons d ds => simp
  have hread : ReadCSV (headers :: dataRows)
      = .ok (dataRows.map (buildRecord headers)) := by
    unfold ReadCSV
    rw [if_neg hlen2]
  have hupd := updateJKWEF_ok headers dataRows
    (ImportIssues (dataRows.map (buildRecord headers)) create).resultMapping
    (ImportIssues (dataRows.map (buildRecord headers)) create).errorFlags
    idIndex keyIndex errorIndex hscan hne
  have herrc : (ImportIssues (dataRows.map (buildRecord headers)) create).errorCount
      = dataRows.countP (fun r => createFails create (buildRecord headers r)) := by
    rw [importIssues_errorCount, List.countP_map]
    rfl
  have hlenm : (ImportIssues (dataRows.map (buildRecord headers)) create).resultMapping.length
      = dataRows.length := by
    rw [importIssues_mapping_length create _ hnodup, List.length_map]
  have hcell : ∀ r ∈ dataRows,
      ((applyRow idIndex keyIndex errorIndex
          (ImportIssues (dataRows.map (buildRecord headers)) create).resultMapping
          (ImportIssues (dataRows.map (buildRecord headers)) create).errorFlags
          r).getD errorIndex "" == "1")
        = createFails create (buildRecord headers r) := by
    intro r hr
    have hmem : buildRecord headers r ∈ dataRows.map (buildRecord headers) :=
      List.mem_map_of_mem _ hr
    obtain ⟨hm, hf⟩ := importIssues_lookup create
      (dataRows.map (buildRecord headers)) (buildRecord headers r) hmem hnodup
    rw [hpid r hr] at hm hf
    rw [applyRow_error_cell idIndex keyIndex errorIndex _ _ r _ _
      (hlen r hr).1 (hlen r hr).2 hm hf]
    cases hb : createFails create (buildRecord headers r) <;> simp [hb]
  refine ⟨headers :: dataRows.map (applyRow idIndex keyIndex errorIndex
      (ImportIssues (dataRows.map (buildRecord headers)) create).resultMapping
      (ImportIssues (dataRows.map (buildRecord headers)) create).errorFlags),
    ?_, ?_⟩
  · unfold importPhase
    rw [hread]
    dsimp only
    rw [hupd]
    unfold importReport
    rw [herrc, hlenm]
  · rw [List.drop_one, List.tail_cons, List.countP_map]
    refine List.countP_congr ?_
    intro r hr
    constructor
    · intro h
      rw [← hcell r hr]
      exact h
    · intro h
      rw [Function.comp_apply, hcell r hr]
      exact h

/-- Witness for C7 at the spec's example size: 10 records of which 3
fail creation give a report of `success = 7`, `failure = 3` and exactly
3 ledger rows with `Error = "1"`. -/
theorem import_summary_counts_example :
    ∃ newCsv,
      importPhase
          [["JIRA Issue ID", "JIRA Issue Key", "Error"],
           ["id0", "", ""], ["id1", "", ""], ["id2", "", ""], ["id3", "", ""],
           ["id4", "", ""], ["id5", "", ""], ["id6", "", ""], ["id7", "", ""],
           ["id8", "", ""], ["id9", "", ""]]
          (fun rec => if pidOf rec = "id2" ∨ pidOf rec = "id5" ∨ pidOf rec = "id7"
                      then .error "fail" else .ok ("KEY-" ++ pidOf rec))
        = .ok ((7, 3), newCsv)
      ∧ (newCsv.drop 1).countP (fun r => r.getD 2 "" == "1") = 3 := by
  obtain ⟨newCsv, h1, h2⟩ := import_summary_and_ledger_counts
    ["JIRA Issue ID", "JIRA Issue Key", "Error"]
    [["id0", "", ""], ["id1", "", ""], ["id2", "", ""], ["id3", "", ""],
     ["id4", "", ""], ["id5", "", ""], ["id6", "", ""], ["id7", "", ""],
     ["id8", "", ""], ["id9", "", ""]]
    (fun rec => if pidOf rec = "id2" ∨ pidOf rec = "id5" ∨ pidOf rec = "id7"
                then .error "fail" else .ok ("KEY-" ++ pidOf rec))
    0 1 2 (by decide) (by decide) (by decide) (by decide) (by decide)
  have hc : ([["id0", "", ""], ["id1", "", ""], ["id2", "", ""], ["id3", "", ""],
      ["id4", "", ""], ["id5", "", ""], ["id6", "", ""], ["id7", "", ""],
      ["id8", "", ""], ["id9", "", ""]] : List (List String)).countP
        (fun r => createFails
          (fun rec => if pidOf rec = "id2" ∨ pidOf rec = "id5" ∨ pidOf rec = "id7"
                      then .error "fail" else .ok ("KEY-" ++ pidOf rec))
          (buildRecord ["JIRA Issue ID", "JIRA Issue Key", "Error"] r)) = 3 := by
    decide
  rw [hc] at h1 h2
  exact ⟨newCsv, by simpa using h1, h2⟩

end PivotalToJira
